import Mathlib

/-!
Shallow embedding of the multi-provider image-generation fan-out from
`useImageGeneration` (the hook that drives `startGeneration` / `resetState`):
its data model (`ImageResult`, `ImageError`, `ProviderTiming`), the state of
one orchestrator instance (`GenState`), and the state transformers that the
hook's `resetState`, `startGeneration` and its inner `generateImage` perform.

Asynchrony is modelled by making the outcome of each provider's endpoint call
an explicit `Outcome` value and the settlement order of the dispatched units an
explicit `order : List ProviderKey`: each unit's post-`await` writes run
synchronously with no intervening suspension point, so a settlement is one
atomic state update, and a whole round is the synchronous initialisation
followed by a fold of the settlements in `order`, followed by the `finally`
clause clearing the loading flag.
-/

namespace ImageGen

/-- Provider identifiers are opaque string tokens (`ProviderKey`). -/
abbrev ProviderKey := String

/-- One image-result slot: `{ provider, image, modelId }`.  `image = none`
models JavaScript `null`; `modelId = none` models an `undefined` model id
(a provider missing from `providerToModel`). -/
structure ImageResult where
  provider : ProviderKey
  image : Option String
  modelId : Option String
  deriving Repr, DecidableEq

/-- One generation-error entry: `{ provider, message }`. -/
structure ImageError where
  provider : ProviderKey
  message : String
  deriving Repr, DecidableEq

/-- One provider-timing slot: `{ startTime, completionTime?, elapsed? }`. -/
structure ProviderTiming where
  startTime : Int
  completionTime : Option Int
  elapsed : Option Int
  deriving Repr, DecidableEq

/-- The hook's aggregate state: the five `useState` cells
(`images`, `errors`, `timings`, `failedProviders`, `isLoading`).
`timings` is a keyed record; `none` models a key that is absent
(or bound to `undefined`). -/
structure GenState where
  images : List ImageResult
  errors : List ImageError
  timings : ProviderKey → Option ProviderTiming
  failedProviders : List ProviderKey
  isLoading : Bool

/-- Modelled from the spec: `initializeProviderRecord` lives in
`@/lib/ai/image-ai`, which is not part of the sampled sources.  Per the spec
(§4.1) it is pure and returns a record binding every registered provider to a
copy of the caller-supplied default, or a zero-value when no default is given.
`resetState` calls it with no default, so every key is bound to `undefined`,
i.e. every lookup yields `none`. -/
def initializeProviderRecord : ProviderKey → Option ProviderTiming :=
  fun _ => none

/-- `resetState`: clears `images`, `errors`, `failedProviders`, resets
`timings` to `initializeProviderRecord()` and sets `isLoading` to `false`.
The previous state is discarded entirely. -/
def resetState (_s : GenState) : GenState :=
  { images := []
    errors := []
    timings := initializeProviderRecord
    failedProviders := []
    isLoading := false }

/-- The result of one settled call to the `/api/image-ai` endpoint, as seen by
`generateImage` after its `await`s:
* `throwErr msg` — `fetch` or `response.json()` threw/rejected with an
  `Error` carrying `msg`;
* `throwNonError` — a non-`Error` value was thrown;
* `response ok status error image ctime` — a response was received and parsed;
  `ok` is `response.ok`, `status` is `response.status`, `error` is the parsed
  body's `error` field (`none` when absent), `image` its `image` field, and
  `ctime` the `Date.now()` instant at which this unit's handler runs. -/
inductive Outcome where
  | throwErr (msg : String)
  | throwNonError
  | response (ok : Bool) (status : Nat) (error : Option String)
      (image : Option String) (ctime : Int)
  deriving Repr, DecidableEq

/-- The `Server error: ${response.status}` fallback message. -/
def serverErrorMessage (status : Nat) : String :=
  "Server error: " ++ toString status

/-- JavaScript `a || b` on the parsed body's `error` field: an absent field
or an empty string is falsy, so the fallback is used. -/
def jsOr (a : Option String) (b : String) : String :=
  match a with
  | some s => if s = "" then b else s
  | none => b

/-- The error message that `generateImage`'s `catch` extracts from a failed
outcome, or `none` when the outcome is a success (`response.ok`).  On a
non-ok response the thrown value is `new Error(data.error || Server error)`;
on a non-`Error` throw the generic fallback is used. -/
def failureMessage : Outcome → Option String
  | .throwErr msg => some msg
  | .throwNonError => some "An unexpected error occurred"
  | .response true _ _ _ _ => none
  | .response false status error _ _ =>
      some (jsOr error (serverErrorMessage status))

/-- `prevImages.map(item => item.provider === provider ? { ...item, image, modelId } : item)` —
both success and failure paths rewrite `provider`'s slot(s) this way, keeping
`provider` and overwriting `image` and `modelId`. -/
def updateImagesFor (p : ProviderKey) (img : Option String)
    (m : Option String) (images : List ImageResult) : List ImageResult :=
  images.map fun item =>
    if item.provider = p then { item with image := img, modelId := m } else item

/-- The `catch` block of `generateImage`: append `provider` to
`failedProviders`, append `{provider, message}` to `errors`, and clear
`provider`'s image slot (timings untouched). -/
def failProvider (p : ProviderKey) (m : Option String) (msg : String)
    (s : GenState) : GenState :=
  { s with
    failedProviders := s.failedProviders ++ [p]
    errors := s.errors ++ [⟨p, msg⟩]
    images := updateImagesFor p none m s.images }

/-- One unit of work `generateImage(provider, modelId)` with the endpoint
call's result abstracted as `o`, applied at its settlement.  `now` is the
round's shared dispatch instant (`const startTime = now`).  On success the
timing slot is rewritten to `{startTime, completionTime, elapsed}` and the
image slot to the response's image; on any failure the `catch` block runs. -/
def generateImage (now : Int) (p : ProviderKey) (m : Option String)
    (o : Outcome) (s : GenState) : GenState :=
  match o with
  | .response true _ _ img ctime =>
      { s with
        timings := fun q =>
          if q = p then some ⟨now, some ctime, some (ctime - now)⟩
          else s.timings q
        images := updateImagesFor p img m s.images }
  | .response false status error _ _ =>
      failProvider p m (jsOr error (serverErrorMessage status)) s
  | .throwErr msg => failProvider p m msg s
  | .throwNonError => failProvider p m "An unexpected error occurred" s

/-- The synchronous prefix of `startGeneration`, before any unit settles:
`isLoading := true`; `images` replaced by one fresh null slot per selected
provider; `errors` and `failedProviders` cleared; `timings` replaced by
`Object.fromEntries(providers.map(p => [p, {startTime: now}]))`. -/
def initRound (providers : List ProviderKey)
    (providerToModel : ProviderKey → Option String) (now : Int) : GenState :=
  { images := providers.map fun p => ⟨p, none, providerToModel p⟩
    errors := []
    timings := fun q =>
      if q ∈ providers then some ⟨now, none, none⟩ else none
    failedProviders := []
    isLoading := true }

/-- Settle the dispatched units in the interleaving order `order`, each unit
applying `generateImage` for its provider with that provider's outcome. -/
def settleAll (now : Int) (providerToModel : ProviderKey → Option String)
    (out : ProviderKey → Outcome) (order : List ProviderKey)
    (s : GenState) : GenState :=
  order.foldl (fun s p => generateImage now p (providerToModel p) (out p) s) s

/-- A full `startGeneration(prompt, providers, providerToModel)` round.
`fetchOutcome prompt p m` abstracts the settled result of
`fetch("/api/image-ai", {prompt, provider: p, modelId: m})`; `order` is the
order in which the dispatched units settle (any permutation of `providers`);
`now` is the shared dispatch instant.  The previous state `_prev` is ignored:
every field is overwritten by the round.  After `Promise.all` resolves the
`finally` clause sets `isLoading := false`. -/
def startGeneration (prompt : String) (providers : List ProviderKey)
    (providerToModel : ProviderKey → Option String) (now : Int)
    (fetchOutcome : String → ProviderKey → Option String → Outcome)
    (order : List ProviderKey) (_prev : GenState) : GenState :=
  let settled := settleAll now providerToModel
    (fun p => fetchOutcome prompt p (providerToModel p)) order
    (initRound providers providerToModel now)
  { settled with isLoading := false }

/-- The image-result slot for provider `p`: the first entry of `images`
naming `p`. -/
def providerSlot (s : GenState) (p : ProviderKey) : Option ImageResult :=
  s.images.find? fun i => i.provider == p

/-- `p` holds a successful image: its slot exists and its `image` field is
populated. -/
def hasSuccessfulImage (s : GenState) (p : ProviderKey) : Prop :=
  ∃ url, (providerSlot s p).map ImageResult.image = some (some url)

/-- The image value a settled outcome leaves in the provider's slot:
the response's image on success, `null` on any failure. -/
def imageResultOfOutcome : Outcome → Option String
  | .response true _ _ img _ => img
  | _ => none

/-- The timing slot a settled outcome leaves for its provider, relative to
the round's shared dispatch instant: completion fields filled on success,
still absent on failure. -/
def roundTiming (now : Int) : Outcome → ProviderTiming
  | .response true _ _ _ ctime => ⟨now, some ctime, some (ctime - now)⟩
  | _ => ⟨now, none, none⟩

/-- Provider→model record `{alpha: "m1", beta: "m2"}` of the end-to-end
scenario. -/
def scenarioModel : ProviderKey → Option String :=
  fun p => if p = "alpha" then some "m1" else
    if p = "beta" then some "m2" else none

/-- Endpoint behaviour of the end-to-end scenario: `alpha` responds OK with
`{image: "url1"}` at instant 50, `beta` rejects with `"rate limited"`. -/
def scenarioFetch : String → ProviderKey → Option String → Outcome :=
  fun _ p _ =>
    if p = "alpha" then .response true 200 none (some "url1") 50
    else .throwErr "rate limited"

/-- State before the end-to-end scenario round. -/
def scenarioPrev : GenState :=
  { images := [], errors := [], timings := initializeProviderRecord
    failedProviders := [], isLoading := false }

/-- Final state of the end-to-end scenario
`startGeneration("a cat", ["alpha","beta"], {alpha:"m1", beta:"m2"})`, with
`beta` settling before `alpha` (it fails after 10ms, `alpha` succeeds after
50ms). -/
def scenarioFinal : GenState :=
  startGeneration "a cat" ["alpha", "beta"] scenarioModel 0 scenarioFetch
    ["beta", "alpha"] scenarioPrev

/-- State before the duplicated-selection round. -/
def dupPrev : GenState :=
  { images := [], errors := [], timings := fun _ => none
    failedProviders := [], isLoading := false }

/-- Final state of a round whose selection lists provider "a" twice and whose
endpoint call responds OK with a body carrying no image. -/
def dupFinal : GenState :=
  startGeneration "x" ["a", "a"] (fun _ => some "m") 0
    (fun _ _ _ => .response true 200 none none 5) ["a", "a"] dupPrev

/-- A state a previous round could have left: provider "b" holds an image
slot with `image = "u"` and a completed timing slot. -/
def stalePrev : GenState :=
  { images := [⟨"b", some "u", some "mb"⟩]
    errors := []
    timings := fun q => if q = "b" then some ⟨0, some 3, some 3⟩ else none
    failedProviders := [], isLoading := false }

/-- Final state of a round selecting only "a" started from `stalePrev`. -/
def staleFinal : GenState :=
  startGeneration "x" ["a"] (fun _ => some "ma") 10
    (fun _ _ _ => .response true 200 none (some "i") 11) ["a"] stalePrev

section Lemmas

variable {now : Int} {ptm : ProviderKey → Option String}
variable {out : ProviderKey → Outcome} {p q : ProviderKey}
variable {m img : Option String} {o : Outcome} {s : GenState}

theorem settleAll_nil : settleAll now ptm out [] s = s := rfl

theorem settleAll_cons {l : List ProviderKey} :
    settleAll now ptm out (q :: l) s
      = settleAll now ptm out l (generateImage now q (ptm q) (out q) s) := rfl

theorem settleAll_append {l t : List ProviderKey} :
    settleAll now ptm out (l ++ t) s
      = settleAll now ptm out t (settleAll now ptm out l s) := by
  simp [settleAll, List.foldl_append]

theorem provider_update_elem {i : ImageResult} :
    (if i.provider = q then { i with image := img, modelId := m } else i).provider
      = i.provider := by
  by_cases h : i.provider = q <;> simp [h]

theorem find?_map_provider_comm (f : ImageResult → ImageResult)
    (hf : ∀ i, (f i).provider = i.provider) (l : List ImageResult) :
    (l.map f).find? (fun i => i.provider == p)
      = (l.find? (fun i => i.provider == p)).map f := by
  induction l with
  | nil => rfl
  | cons a t ih =>
      simp only [List.map_cons, List.find?, hf]
      cases h : (a.provider == p) <;> simp [h, ih]

theorem providerSlot_update_self (l : List ImageResult) :
    (updateImagesFor p img m l).find? (fun i => i.provider == p)
      = (l.find? (fun i => i.provider == p)).map
          (fun i => { i with image := img, modelId := m }) := by
  rw [updateImagesFor, find?_map_provider_comm _ (fun i => provider_update_elem)]
  cases hfind : l.find? (fun i => i.provider == p) with
  | none => rfl
  | some i =>
      have hip : i.provider = p := by
        have := List.find?_some hfind
        exact beq_iff_eq.mp this
      simp [hip]

theorem providerSlot_update_ne (h : q ≠ p) (l : List ImageResult) :
    (updateImagesFor q img m l).find? (fun i => i.provider == p)
      = l.find? (fun i => i.provider == p) := by
  rw [updateImagesFor, find?_map_provider_comm _ (fun i => provider_update_elem)]
  cases hfind : l.find? (fun i => i.provider == p) with
  | none => rfl
  | some i =>
      have hip : i.provider = p := by
        have := List.find?_some hfind
        exact beq_iff_eq.mp this
      have : ¬ i.provider = q := by rw [hip]; exact fun hh => h hh.symm
      simp [this]

theorem providers_updateImagesFor (l : List ImageResult) :
    (updateImagesFor q img m l).map ImageResult.provider
      = l.map ImageResult.provider := by
  rw [updateImagesFor, List.map_map]
  exact List.map_congr_left fun i _ => provider_update_elem

theorem providerSlot_generateImage_ne (h : q ≠ p) :
    providerSlot (generateImage now q m o s) p = providerSlot s p := by
  cases o with
  | throwErr msg => exact providerSlot_update_ne h s.images
  | throwNonError => exact providerSlot_update_ne h s.images
  | response ok status error image ctime =>
      cases ok <;> exact providerSlot_update_ne h s.images

theorem providerSlot_generateImage_self :
    providerSlot (generateImage now p m o s) p
      = (providerSlot s p).map
          (fun i => { i with image := imageResultOfOutcome o, modelId := m }) := by
  cases o with
  | throwErr msg => exact providerSlot_update_self s.images
  | throwNonError => exact providerSlot_update_self s.images
  | response ok status error image ctime =>
      cases ok <;> exact providerSlot_update_self s.images

theorem timings_generateImage_ne (h : q ≠ p) :
    (generateImage now q m o s).timings p = s.timings p := by
  cases o with
  | throwErr msg => rfl
  | throwNonError => rfl
  | response ok status error image ctime =>
      cases ok with
      | false => rfl
      | true =>
          show (if p = q then some ⟨now, some ctime, some (ctime - now)⟩
            else s.timings p) = s.timings p
          rw [if_neg (fun hh => h hh.symm)]

theorem timings_generateImage_self_success {status : Nat}
    {error : Option String} {ctime : Int}
    (ho : o = .response true status error img ctime) :
    (generateImage now p m o s).timings p
      = some ⟨now, some ctime, some (ctime - now)⟩ := by
  subst ho; simp [generateImage]

theorem timings_generateImage_self_failure {msg : String}
    (ho : failureMessage o = some msg) :
    (generateImage now p m o s).timings p = s.timings p := by
  cases o with
  | throwErr m0 => rfl
  | throwNonError => rfl
  | response ok status error image ctime =>
      cases ok with
      | false => rfl
      | true => simp [failureMessage] at ho

theorem errors_generateImage :
    (generateImage now q m o s).errors
      = s.errors ++ ((failureMessage o).map fun msg => (⟨q, msg⟩ : ImageError)).toList := by
  cases o with
  | throwErr msg => rfl
  | throwNonError => rfl
  | response ok status error image ctime =>
      cases ok with
      | false => rfl
      | true => simp [generateImage, failureMessage]

theorem failed_generateImage :
    (generateImage now q m o s).failedProviders
      = s.failedProviders
          ++ (if (failureMessage o).isSome then [q] else []) := by
  cases o with
  | throwErr msg => rfl
  | throwNonError => rfl
  | response ok status error image ctime =>
      cases ok with
      | false => simp [generateImage, failProvider, failureMessage]
      | true => simp [generateImage, failureMessage]

theorem isLoading_generateImage :
    (generateImage now q m o s).isLoading = s.isLoading := by
  cases o with
  | throwErr msg => rfl
  | throwNonError => rfl
  | response ok status error image ctime => cases ok <;> rfl

theorem providers_images_generateImage :
    (generateImage now q m o s).images.map ImageResult.provider
      = s.images.map ImageResult.provider := by
  cases o with
  | throwErr msg => exact providers_updateImagesFor s.images
  | throwNonError => exact providers_updateImagesFor s.images
  | response ok status error image ctime =>
      cases ok <;> exact providers_updateImagesFor s.images

theorem settleAll_preserves_view (n : Int) (f : ProviderKey → Option String)
    (g : ProviderKey → Outcome) (st : GenState) {l : List ProviderKey}
    (h : p ∉ l) :
    providerSlot (settleAll n f g l st) p = providerSlot st p
      ∧ (settleAll n f g l st).timings p = st.timings p
      ∧ (p ∈ (settleAll n f g l st).failedProviders ↔ p ∈ st.failedProviders) := by
  induction l generalizing st with
  | nil => exact ⟨rfl, rfl, Iff.rfl⟩
  | cons q t ih =>
      have hq : q ≠ p := fun hh => h (hh ▸ List.mem_cons_self q t)
      have ht : p ∉ t := fun hh => h (List.mem_cons_of_mem q hh)
      rw [settleAll_cons]
      obtain ⟨h1, h2, h3⟩ := ih (generateImage n q (f q) (g q) st) ht
      refine ⟨h1.trans (providerSlot_generateImage_ne hq),
        h2.trans (timings_generateImage_ne hq), h3.trans ?_⟩
      rw [failed_generateImage]
      constructor
      · intro hm
        rcases List.mem_append.mp hm with hm | hm
        · exact hm
        · exfalso
          cases hfm : (failureMessage (g q)).isSome with
          | false => rw [hfm] at hm; simp at hm
          | true =>
              rw [hfm] at hm
              simp at hm
              exact hq hm.symm
      · intro hm; exact List.mem_append.mpr (Or.inl hm)

theorem settleAll_isLoading {l : List ProviderKey} :
    (settleAll now ptm out l s).isLoading = s.isLoading := by
  induction l generalizing s with
  | nil => rfl
  | cons q t ih =>
      rw [settleAll_cons]
      exact (ih).trans isLoading_generateImage

theorem settleAll_providers_images {l : List ProviderKey} :
    (settleAll now ptm out l s).images.map ImageResult.provider
      = s.images.map ImageResult.provider := by
  induction l generalizing s with
  | nil => rfl
  | cons q t ih =>
      rw [settleAll_cons]
      exact (ih).trans providers_images_generateImage

theorem settleAll_errors_failed (n : Int) (f : ProviderKey → Option String)
    (g : ProviderKey → Outcome) (st : GenState) (l : List ProviderKey) :
    (settleAll n f g l st).errors
      = st.errors ++ l.filterMap
          (fun r => (failureMessage (g r)).map fun msg => (⟨r, msg⟩ : ImageError))
      ∧ (settleAll n f g l st).failedProviders
          = st.failedProviders
              ++ l.filter (fun r => (failureMessage (g r)).isSome) := by
  induction l generalizing st with
  | nil => simp [settleAll_nil]
  | cons q t ih =>
      rw [settleAll_cons]
      obtain ⟨h1, h2⟩ := ih (generateImage n q (f q) (g q) st)
      constructor
      · rw [h1, errors_generateImage, List.append_assoc, List.filterMap_cons]
        cases hfm : failureMessage (g q) <;> simp [hfm]
      · rw [h2, failed_generateImage, List.append_assoc, List.filter_cons]
        cases hfm : (failureMessage (g q)).isSome <;> simp [hfm]

theorem providerSlot_initRound {providers : List ProviderKey}
    (hp : p ∈ providers) :
    providerSlot (initRound providers ptm now) p = some ⟨p, none, ptm p⟩ := by
  show (providers.map fun r => (⟨r, none, ptm r⟩ : ImageResult)).find?
      (fun i => i.provider == p) = some ⟨p, none, ptm p⟩
  induction providers with
  | nil => cases hp
  | cons a t ih =>
      simp only [List.map_cons, List.find?]
      by_cases hap : a = p
      · subst hap; simp
      · have hbeq : ((⟨a, none, ptm a⟩ : ImageResult).provider == p) = false := by
          simpa using hap
        rw [hbeq]
        cases hp with
        | head => exact absurd rfl hap
        | tail _ hmem => exact ih hmem

theorem providerSlot_initRound_not_mem {providers : List ProviderKey}
    (hp : p ∉ providers) :
    providerSlot (initRound providers ptm now) p = none := by
  show (providers.map fun r => (⟨r, none, ptm r⟩ : ImageResult)).find?
      (fun i => i.provider == p) = none
  induction providers with
  | nil => rfl
  | cons a t ih =>
      have hap : a ≠ p := fun hh => hp (hh ▸ List.mem_cons_self a t)
      have ht : p ∉ t := fun hh => hp (List.mem_cons_of_mem a hh)
      simp only [List.map_cons, List.find?]
      have hbeq : ((⟨a, none, ptm a⟩ : ImageResult).provider == p) = false := by
        simpa using hap
      rw [hbeq]
      exact ih ht

theorem timings_initRound {providers : List ProviderKey} (hp : p ∈ providers) :
    (initRound providers ptm now).timings p = some ⟨now, none, none⟩ := by
  simp [initRound, hp]

theorem timings_initRound_not_mem {providers : List ProviderKey}
    (hp : p ∉ providers) :
    (initRound providers ptm now).timings p = none := by
  simp [initRound, hp]

/-- Per-provider characterization of a fully settled round: when the selected
providers are duplicate-free and every dispatched unit settles exactly once
(`order` is a permutation of `providers`), provider `p`'s slot, timing, and
failed-set membership are determined by `p`'s own outcome alone. -/
theorem round_char (now : Int) (ptm : ProviderKey → Option String)
    (out : ProviderKey → Outcome) {providers order : List ProviderKey}
    (hnd : providers.Nodup) (hperm : order.Perm providers) (hp : p ∈ providers) :
    providerSlot (settleAll now ptm out order (initRound providers ptm now)) p
        = some ⟨p, imageResultOfOutcome (out p), ptm p⟩
      ∧ (settleAll now ptm out order (initRound providers ptm now)).timings p
          = some (roundTiming now (out p))
      ∧ (p ∈ (settleAll now ptm out order (initRound providers ptm now)).failedProviders
          ↔ (failureMessage (out p)).isSome = true) := by
  have hond : order.Nodup := hperm.nodup_iff.mpr hnd
  have hpo : p ∈ order := hperm.mem_iff.mpr hp
  obtain ⟨l1, l2, rfl⟩ := List.append_of_mem hpo
  have hnd12 := List.nodup_append.mp hond
  have hpl2 : p ∉ l2 := (List.nodup_cons.mp hnd12.2.1).1
  have hpl1 : p ∉ l1 := fun hm => hnd12.2.2 hm (List.mem_cons_self p l2)
  rw [show l1 ++ p :: l2 = (l1 ++ [p]) ++ l2 by simp, settleAll_append,
    settleAll_append]
  set s0 := initRound providers ptm now with hs0
  obtain ⟨v1, v2, v3⟩ := settleAll_preserves_view now ptm out s0 hpl1
  set s1 := settleAll now ptm out l1 s0 with hs1
  have hslot1 : providerSlot s1 p = some ⟨p, none, ptm p⟩ :=
    v1.trans (providerSlot_initRound hp)
  have htime1 : s1.timings p = some ⟨now, none, none⟩ :=
    v2.trans (timings_initRound hp)
  have hfail1 : p ∉ s1.failedProviders := by
    intro hm
    have : p ∈ s0.failedProviders := v3.mp hm
    simp [hs0, initRound] at this
  rw [show settleAll now ptm out [p] s1
      = generateImage now p (ptm p) (out p) s1 from rfl]
  set s2 := generateImage now p (ptm p) (out p) s1 with hs2
  have hslot2 : providerSlot s2 p
      = some ⟨p, imageResultOfOutcome (out p), ptm p⟩ := by
    rw [hs2, providerSlot_generateImage_self, hslot1]; rfl
  have htime2 : s2.timings p = some (roundTiming now (out p)) := by
    cases ho : out p with
    | throwErr msg => rw [hs2, ho]; exact htime1
    | throwNonError => rw [hs2, ho]; exact htime1
    | response ok status error image ctime =>
        cases ok with
        | true => rw [hs2, ho]; simp [generateImage, roundTiming]
        | false => rw [hs2, ho]; exact htime1
  have hfail2 : p ∈ s2.failedProviders
      ↔ (failureMessage (out p)).isSome = true := by
    rw [hs2, failed_generateImage]
    cases hfm : (failureMessage (out p)).isSome with
    | true => simp
    | false => simp [hfail1]
  obtain ⟨w1, w2, w3⟩ := settleAll_preserves_view now ptm out s2 hpl2
  exact ⟨w1.trans hslot2, w2.trans htime2, w3.trans hfail2⟩

theorem imageResultOfOutcome_of_failure {o : Outcome} {msg : String}
    (h : failureMessage o = some msg) : imageResultOfOutcome o = none := by
  cases o with
  | throwErr m0 => rfl
  | throwNonError => rfl
  | response ok status error image ctime =>
      cases ok with
      | true => simp [failureMessage] at h
      | false => rfl

theorem map_provider_mk (f : ProviderKey → Option String)
    (l : List ProviderKey) :
    (l.map fun q => (⟨q, none, f q⟩ : ImageResult)).map ImageResult.provider
      = l := by
  induction l with
  | nil => rfl
  | cons a t ih => simp only [List.map_cons]; rw [ih]

end Lemmas

/-- C5: `resetState` is idempotent — from any state, applying it twice yields
the same state as applying it once — and the result has Image Results empty,
Generation Errors empty, Timings back to the Provider Registry's empty record,
the Failed-Provider set empty, and `isLoading = false`. -/
theorem resetState_idempotent (s : GenState) :
    resetState (resetState s) = resetState s
      ∧ (resetState s).images = []
      ∧ (resetState s).errors = []
      ∧ (resetState s).timings = initializeProviderRecord
      ∧ (resetState s).failedProviders = []
      ∧ (resetState s).isLoading = false :=
  ⟨rfl, rfl, rfl, rfl, rfl, rfl⟩

/-- C9: for `startGeneration("a cat", ["alpha","beta"], {alpha:"m1",
beta:"m2"})`, where `alpha`'s call succeeds with image `"url1"` (settling
after `beta`) and `beta`'s call rejects with `"rate limited"` (settling
first), the final state is `images = [{alpha, "url1", "m1"}, {beta, absent,
"m2"}]` in that order, `errors = [{beta, "rate limited"}]`,
`failedProviders = ["beta"]`, `isLoading = false`. -/
theorem scenario_final_state :
    scenarioFinal.images
        = [⟨"alpha", some "url1", some "m1"⟩, ⟨"beta", none, some "m2"⟩]
      ∧ scenarioFinal.errors = [⟨"beta", "rate limited"⟩]
      ∧ scenarioFinal.failedProviders = ["beta"]
      ∧ scenarioFinal.isLoading = false := by
  refine ⟨?_, ?_, ?_, ?_⟩ <;> rfl

/-- C4: `isLoading` is set to `true` synchronously within `startGeneration`
(it is already `true` in the round's initial state), stays `true` at every
intermediate point where only a prefix `pre` of the dispatched units has
settled, and is `false` once `startGeneration` resolves, i.e. after every
dispatched call has settled. -/
theorem isLoading_join (prompt : String) (providers : List ProviderKey)
    (ptm : ProviderKey → Option String) (now : Int)
    (fo : String → ProviderKey → Option String → Outcome)
    (order pre : List ProviderKey) (prev : GenState) :
    (initRound providers ptm now).isLoading = true
      ∧ (settleAll now ptm (fun r => fo prompt r (ptm r)) pre
          (initRound providers ptm now)).isLoading = true
      ∧ (startGeneration prompt providers ptm now fo order prev).isLoading
          = false :=
  ⟨rfl, settleAll_isLoading.trans rfl, rfl⟩

/-- C6: no unit of work propagates a failure past its own boundary — for
every combination of outcomes (throws, rejections, error responses), the
round's final error sequence and Failed-Provider set are exactly the fold of
the individual failures in settlement order, and the orchestrator's join
always completes, leaving `isLoading = false`. -/
theorem failures_contained (prompt : String) (providers : List ProviderKey)
    (ptm : ProviderKey → Option String) (now : Int)
    (fo : String → ProviderKey → Option String → Outcome)
    (order : List ProviderKey) (prev : GenState) :
    (startGeneration prompt providers ptm now fo order prev).errors
        = order.filterMap (fun r =>
            (failureMessage (fo prompt r (ptm r))).map
              fun msg => (⟨r, msg⟩ : ImageError))
      ∧ (startGeneration prompt providers ptm now fo order prev).failedProviders
          = order.filter
              (fun r => (failureMessage (fo prompt r (ptm r))).isSome)
      ∧ (startGeneration prompt providers ptm now fo order prev).isLoading
          = false := by
  obtain ⟨h1, h2⟩ := settleAll_errors_failed now ptm
    (fun r => fo prompt r (ptm r)) (initRound providers ptm now) order
  exact ⟨h1.trans (by simp [initRound]), h2.trans (by simp [initRound]), rfl⟩

/-- C3: at every point during and after a round — i.e. after any list
`order` of settled units, the empty list covering the round start where both
collections are cleared together — a provider is in the Failed-Provider set
iff at least one Generation Error entry of the current round names it; the
same holds of the state `startGeneration` resolves to. -/
theorem failed_iff_named_error (prompt : String) (providers : List ProviderKey)
    (ptm : ProviderKey → Option String) (now : Int)
    (fo : String → ProviderKey → Option String → Outcome)
    (order : List ProviderKey) (prev : GenState) (p : ProviderKey) :
    (p ∈ (settleAll now ptm (fun r => fo prompt r (ptm r)) order
          (initRound providers ptm now)).failedProviders
        ↔ ∃ e ∈ (settleAll now ptm (fun r => fo prompt r (ptm r)) order
            (initRound providers ptm now)).errors, e.provider = p)
      ∧ (p ∈ (startGeneration prompt providers ptm now fo order prev).failedProviders
          ↔ ∃ e ∈ (startGeneration prompt providers ptm now fo order
              prev).errors, e.provider = p) := by
  obtain ⟨h1, h2⟩ := settleAll_errors_failed now ptm
    (fun r => fo prompt r (ptm r)) (initRound providers ptm now) order
  have key : p ∈ (settleAll now ptm (fun r => fo prompt r (ptm r)) order
        (initRound providers ptm now)).failedProviders
      ↔ ∃ e ∈ (settleAll now ptm (fun r => fo prompt r (ptm r)) order
          (initRound providers ptm now)).errors, e.provider = p := by
    rw [h1, h2]
    simp only [initRound, List.nil_append]
    constructor
    · intro hm
      obtain ⟨hmem, hsome⟩ := List.mem_filter.mp hm
      cases hfm : failureMessage (fo prompt p (ptm p)) with
      | none => rw [hfm] at hsome; simp at hsome
      | some msg =>
          exact ⟨⟨p, msg⟩,
            List.mem_filterMap.mpr ⟨p, hmem, by rw [hfm]; rfl⟩, rfl⟩
    · rintro ⟨e, he, hep⟩
      obtain ⟨r, hr, hre⟩ := List.mem_filterMap.mp he
      cases hfm : failureMessage (fo prompt r (ptm r)) with
      | none => rw [hfm] at hre; simp at hre
      | some msg =>
          rw [hfm] at hre
          simp only [Option.map_some'] at hre
          have he2 : e = ⟨r, msg⟩ := (Option.some.inj hre).symm
          have hrp : r = p := by rw [he2] at hep; exact hep
          subst hrp
          exact List.mem_filter.mpr ⟨hr, by rw [hfm]; rfl⟩
  exact ⟨key, key⟩

/-- C7: one shared dispatch instant `now` is captured per round and every
selected provider's Timing slot is initialised to `{startTime: now}` with
completion fields absent; on a provider's success its `elapsed` equals its
completion instant minus that shared round-dispatch instant (code:
`const startTime = now`), not a per-call start instant. -/
theorem shared_dispatch_instant (providers order : List ProviderKey)
    (ptm : ProviderKey → Option String) (now : Int)
    (out : ProviderKey → Outcome) (p : ProviderKey)
    (hnd : providers.Nodup) (hperm : order.Perm providers)
    (hp : p ∈ providers) :
    (∀ q ∈ providers,
        (initRound providers ptm now).timings q = some ⟨now, none, none⟩)
      ∧ ∀ status error img ctime,
          out p = .response true status error img ctime →
          (settleAll now ptm out order (initRound providers ptm now)).timings p
            = some ⟨now, some ctime, some (ctime - now)⟩ := by
  refine ⟨fun q hq => timings_initRound hq, ?_⟩
  intro status error img ctime ho
  have h := (round_char now ptm out hnd hperm hp).2.1
  rw [h, ho]
  rfl

/-- Witness for C7 at a concrete round: providers `["a","b"]`, dispatch
instant 2, `"a"` succeeding at instant 9 after `"b"` failed. -/
theorem shared_dispatch_instant_witness :
    (settleAll 2 (fun _ => none)
        (fun r => if r = "a" then Outcome.response true 200 none (some "u") 9
          else Outcome.throwErr "x") ["b", "a"]
        (initRound ["a", "b"] (fun _ => none) 2)).timings "a"
      = some ⟨2, some 9, some (9 - 2)⟩ :=
  (shared_dispatch_instant ["a", "b"] ["b", "a"] (fun _ => none) 2
      (fun r => if r = "a" then Outcome.response true 200 none (some "u") 9
        else Outcome.throwErr "x") "a"
      (by decide) (by decide) (by decide)).2 200 none (some "u") 9 (by decide)

/-- C8: a provider whose unit of work fails in a round ends the round with
its Timing slot still `{startTime: now}` — `completionTime` and `elapsed`
are recorded only on the success path. -/
theorem failure_timing_omitted (providers order : List ProviderKey)
    (ptm : ProviderKey → Option String) (now : Int)
    (out : ProviderKey → Outcome) (p : ProviderKey) (msg : String)
    (hnd : providers.Nodup) (hperm : order.Perm providers)
    (hp : p ∈ providers) (hf : failureMessage (out p) = some msg) :
    (settleAll now ptm out order (initRound providers ptm now)).timings p
      = some ⟨now, none, none⟩ := by
  have h := (round_char now ptm out hnd hperm hp).2.1
  rw [h]
  cases ho : out p with
  | throwErr m0 => rfl
  | throwNonError => rfl
  | response ok status error image ctime =>
      cases ok with
      | true => rw [ho] at hf; simp [failureMessage] at hf
      | false => rfl

/-- Witness for C8 at a concrete round: sole provider `"a"` rejecting with
`"boom"` keeps its timing slot at `{startTime: 5}`. -/
theorem failure_timing_omitted_witness :
    (settleAll 5 (fun _ => none) (fun _ => Outcome.throwErr "boom") ["a"]
        (initRound ["a"] (fun _ => none) 5)).timings "a"
      = some ⟨5, none, none⟩ :=
  failure_timing_omitted ["a"] ["a"] (fun _ => none) 5
    (fun _ => Outcome.throwErr "boom") "a" "boom"
    (by decide) (by decide) (by decide) rfl

/-- C10: a 2xx response whose body carries no image leaves the provider's
Image Result slot with `image = absent` while its `completionTime`/`elapsed`
are still recorded, appends no Generation Error, and does not add the
provider to the Failed-Provider set. -/
theorem ok_response_without_image (providers order : List ProviderKey)
    (ptm : ProviderKey → Option String) (now : Int)
    (out : ProviderKey → Outcome) (p : ProviderKey)
    (status : Nat) (error : Option String) (ctime : Int)
    (hnd : providers.Nodup) (hperm : order.Perm providers)
    (hp : p ∈ providers)
    (ho : out p = .response true status error none ctime) :
    providerSlot (settleAll now ptm out order (initRound providers ptm now)) p
        = some ⟨p, none, ptm p⟩
      ∧ (settleAll now ptm out order (initRound providers ptm now)).timings p
          = some ⟨now, some ctime, some (ctime - now)⟩
      ∧ p ∉ (settleAll now ptm out order
          (initRound providers ptm now)).failedProviders
      ∧ ∀ e ∈ (settleAll now ptm out order
          (initRound providers ptm now)).errors, e.provider ≠ p := by
  obtain ⟨hslot, htime, hfail⟩ := round_char now ptm out hnd hperm hp
  have hfm : failureMessage (out p) = none := by rw [ho]; rfl
  refine ⟨?_, ?_, ?_, ?_⟩
  · rw [hslot, ho]; rfl
  · rw [htime, ho]; rfl
  · intro hm
    have hi := hfail.mp hm
    rw [hfm] at hi
    simp at hi
  · intro e he hep
    obtain ⟨h1, h2⟩ := settleAll_errors_failed now ptm out
      (initRound providers ptm now) order
    rw [h1, show (initRound providers ptm now).errors = [] from rfl,
      List.nil_append] at he
    obtain ⟨r, hr, hre⟩ := List.mem_filterMap.mp he
    cases hfmr : failureMessage (out r) with
    | none => rw [hfmr] at hre; simp at hre
    | some msg =>
        rw [hfmr] at hre
        simp only [Option.map_some'] at hre
        have he2 : e = ⟨r, msg⟩ := (Option.some.inj hre).symm
        have hrp : r = p := by rw [he2] at hep; exact hep
        rw [hrp, hfm] at hfmr
        cases hfmr

/-- Witness for C10 at a concrete round: sole provider `"a"` answering OK at
instant 9 with no image in the body. -/
theorem ok_response_without_image_witness :
    providerSlot (settleAll 2 (fun _ => some "m")
        (fun _ => Outcome.response true 200 none none 9) ["a"]
        (initRound ["a"] (fun _ => some "m") 2)) "a"
        = some ⟨"a", none, some "m"⟩
      ∧ (settleAll 2 (fun _ => some "m")
          (fun _ => Outcome.response true 200 none none 9) ["a"]
          (initRound ["a"] (fun _ => some "m") 2)).timings "a"
          = some ⟨2, some 9, some (9 - 2)⟩
      ∧ "a" ∉ (settleAll 2 (fun _ => some "m")
          (fun _ => Outcome.response true 200 none none 9) ["a"]
          (initRound ["a"] (fun _ => some "m") 2)).failedProviders
      ∧ ∀ e ∈ (settleAll 2 (fun _ => some "m")
          (fun _ => Outcome.response true 200 none none 9) ["a"]
          (initRound ["a"] (fun _ => some "m") 2)).errors,
            e.provider ≠ "a" :=
  ok_response_without_image ["a"] ["a"] (fun _ => some "m") 2
    (fun _ => Outcome.response true 200 none none 9) "a" 200 none 9
    (by decide) (by decide) (by decide) rfl

/-- C1 counterexample: the claim quantifies over every non-empty `providers`
array and counts "successful image" via the populated image field, but for
the input `["a","a"]` — a legal argument to `startGeneration` — provider "a"
gets two Image Result slots, and when its call responds OK with a body
carrying no image, "a" ends with neither a populated image nor membership in
the Failed-Provider set. -/
theorem completeness_cex :
    dupFinal.images.countP (fun i => i.provider == "a") = 2
      ∧ ¬ hasSuccessfulImage dupFinal "a"
      ∧ "a" ∉ dupFinal.failedProviders := by
  refine ⟨by decide, ?_, by decide⟩
  rintro ⟨url, hurl⟩
  rw [show providerSlot dupFinal "a" = some ⟨"a", none, some "m"⟩ from rfl]
    at hurl
  simp at hurl

/-- C1 (amended): for every non-empty, duplicate-free `providers` input
whose successful endpoint responses each carry an image, after
`startGeneration` resolves every provider in `providers` has exactly one
Image Result slot and one Timing slot, and is in exactly one of
{successful image, Failed-Provider set}. -/
theorem completeness (prompt : String) (providers : List ProviderKey)
    (ptm : ProviderKey → Option String) (now : Int)
    (fo : String → ProviderKey → Option String → Outcome)
    (order : List ProviderKey) (prev : GenState) (p : ProviderKey)
    (hne : providers ≠ [])
    (hnd : providers.Nodup)
    (hperm : order.Perm providers)
    (himg : ∀ q ∈ providers,
      failureMessage (fo prompt q (ptm q)) = none →
      imageResultOfOutcome (fo prompt q (ptm q)) ≠ none)
    (hp : p ∈ providers) :
    (startGeneration prompt providers ptm now fo order prev).images.countP
        (fun i => i.provider == p) = 1
      ∧ ((startGeneration prompt providers ptm now fo order
            prev).timings p).isSome = true
      ∧ ((hasSuccessfulImage
            (startGeneration prompt providers ptm now fo order prev) p
          ∧ p ∉ (startGeneration prompt providers ptm now fo order
              prev).failedProviders)
        ∨ (¬ hasSuccessfulImage
            (startGeneration prompt providers ptm now fo order prev) p
          ∧ p ∈ (startGeneration prompt providers ptm now fo order
              prev).failedProviders)) := by
  obtain ⟨hslot, htime, hfail⟩ :=
    round_char now ptm (fun r => fo prompt r (ptm r)) hnd hperm hp
  have hslotS : providerSlot
      (startGeneration prompt providers ptm now fo order prev) p
      = some ⟨p, imageResultOfOutcome (fo prompt p (ptm p)), ptm p⟩ := hslot
  have hfailS : p ∈ (startGeneration prompt providers ptm now fo order
      prev).failedProviders
      ↔ (failureMessage (fo prompt p (ptm p))).isSome = true := hfail
  refine ⟨?_, ?_, ?_⟩
  · have hmap : (settleAll now ptm (fun r => fo prompt r (ptm r)) order
        (initRound providers ptm now)).images.map ImageResult.provider
        = (initRound providers ptm now).images.map ImageResult.provider :=
      settleAll_providers_images
    show (settleAll now ptm (fun r => fo prompt r (ptm r)) order
        (initRound providers ptm now)).images.countP
        (fun i => i.provider == p) = 1
    have h2 := (List.countP_map (fun a => a == p) ImageResult.provider
      (settleAll now ptm (fun r => fo prompt r (ptm r)) order
        (initRound providers ptm now)).images).symm
    rw [show (fun i => i.provider == p)
        = ((fun a => a == p) ∘ ImageResult.provider) from rfl, h2, hmap,
      show (initRound providers ptm now).images
        = providers.map fun q => (⟨q, none, ptm q⟩ : ImageResult) from rfl,
      map_provider_mk]
    exact List.count_eq_one_of_mem hnd hp
  · show ((settleAll now ptm (fun r => fo prompt r (ptm r)) order
        (initRound providers ptm now)).timings p).isSome = true
    rw [htime]; rfl
  · cases hfm : failureMessage (fo prompt p (ptm p)) with
    | none =>
        have hne2 := himg p hp hfm
        cases himgv : imageResultOfOutcome (fo prompt p (ptm p)) with
        | none => exact absurd himgv hne2
        | some url =>
            left
            refine ⟨⟨url, ?_⟩, ?_⟩
            · rw [hslotS, himgv]; rfl
            · intro hm
              have h5 := hfailS.mp hm
              rw [hfm] at h5
              simp at h5
    | some msg =>
        right
        constructor
        · rintro ⟨url, hurl⟩
          rw [hslotS, imageResultOfOutcome_of_failure hfm] at hurl
          simp at hurl
        · exact hfailS.mpr (by rw [hfm]; rfl)

/-- Witness for the amended C1 at a concrete round: providers `["a","b"]`
with "a" succeeding with an image and "b" rejecting, "b" settling first. -/
theorem completeness_witness :
    (startGeneration "x" ["a", "b"] (fun _ => none) 0
        (fun _ r _ => if r = "a" then Outcome.response true 200 none (some "u") 9
          else Outcome.throwErr "boom") ["b", "a"]
        ⟨[], [], fun _ => none, [], false⟩).images.countP
        (fun i => i.provider == "a") = 1
      ∧ ((startGeneration "x" ["a", "b"] (fun _ => none) 0
          (fun _ r _ => if r = "a" then Outcome.response true 200 none (some "u") 9
            else Outcome.throwErr "boom") ["b", "a"]
          ⟨[], [], fun _ => none, [], false⟩).timings "a").isSome = true
      ∧ ((hasSuccessfulImage
            (startGeneration "x" ["a", "b"] (fun _ => none) 0
              (fun _ r _ => if r = "a" then Outcome.response true 200 none (some "u") 9
                else Outcome.throwErr "boom") ["b", "a"]
              ⟨[], [], fun _ => none, [], false⟩) "a"
          ∧ "a" ∉ (startGeneration "x" ["a", "b"] (fun _ => none) 0
              (fun _ r _ => if r = "a" then Outcome.response true 200 none (some "u") 9
                else Outcome.throwErr "boom") ["b", "a"]
              ⟨[], [], fun _ => none, [], false⟩).failedProviders)
        ∨ (¬ hasSuccessfulImage
            (startGeneration "x" ["a", "b"] (fun _ => none) 0
              (fun _ r _ => if r = "a" then Outcome.response true 200 none (some "u") 9
                else Outcome.throwErr "boom") ["b", "a"]
              ⟨[], [], fun _ => none, [], false⟩) "a"
          ∧ "a" ∈ (startGeneration "x" ["a", "b"] (fun _ => none) 0
              (fun _ r _ => if r = "a" then Outcome.response true 200 none (some "u") 9
                else Outcome.throwErr "boom") ["b", "a"]
              ⟨[], [], fun _ => none, [], false⟩).failedProviders)) :=
  completeness "x" ["a", "b"] (fun _ => none) 0
    (fun _ r _ => if r = "a" then Outcome.response true 200 none (some "u") 9
      else Outcome.throwErr "boom") ["b", "a"]
    ⟨[], [], fun _ => none, [], false⟩ "a"
    (by decide) (by decide) (by decide) (by decide) (by decide)

/-- C2 counterexample: a state where a previous round left provider "b" an
image slot and a completed timing slot; a new round selecting only `["a"]`
does not leave "b"'s slots unchanged — both are discarded (the whole images
array and timings record are replaced). -/
theorem frame_cex :
    providerSlot stalePrev "b" = some ⟨"b", some "u", some "mb"⟩
      ∧ stalePrev.timings "b" = some ⟨0, some 3, some 3⟩
      ∧ providerSlot staleFinal "b" = none
      ∧ staleFinal.timings "b" = none
      ∧ providerSlot staleFinal "b" ≠ providerSlot stalePrev "b"
      ∧ staleFinal.timings "b" ≠ stalePrev.timings "b" := by
  refine ⟨rfl, rfl, rfl, rfl, by decide, by decide⟩

/-- C2 (amended): slots of providers outside the selection are not
preserved: `startGeneration` replaces the whole images array and timings
record with fresh entries for exactly the selected providers, so a provider
not in the selection ends the round with no Image Result slot and no Timing
slot, whatever state a previous round left it. -/
theorem frame_replacement (prompt : String) (providers : List ProviderKey)
    (ptm : ProviderKey → Option String) (now : Int)
    (fo : String → ProviderKey → Option String → Outcome)
    (order : List ProviderKey) (prev : GenState) (p : ProviderKey)
    (hperm : order.Perm providers) (hp : p ∉ providers) :
    providerSlot (startGeneration prompt providers ptm now fo order prev) p
        = none
      ∧ (startGeneration prompt providers ptm now fo order prev).timings p
          = none := by
  have hpo : p ∉ order := fun hm => hp (hperm.mem_iff.mp hm)
  obtain ⟨v1, v2, v3⟩ := settleAll_preserves_view now ptm
    (fun r => fo prompt r (ptm r)) (initRound providers ptm now) hpo
  exact ⟨v1.trans (providerSlot_initRound_not_mem hp),
    v2.trans (timings_initRound_not_mem hp)⟩

/-- Witness for the amended C2: round `["a"]` started from `stalePrev`
leaves provider "b" with no image slot and no timing slot. -/
theorem frame_replacement_witness :
    providerSlot (startGeneration "x" ["a"] (fun _ => some "ma") 10
        (fun _ _ _ => Outcome.response true 200 none (some "i") 11) ["a"]
        stalePrev) "b" = none
      ∧ (startGeneration "x" ["a"] (fun _ => some "ma") 10
          (fun _ _ _ => Outcome.response true 200 none (some "i") 11) ["a"]
          stalePrev).timings "b" = none :=
  frame_replacement "x" ["a"] (fun _ => some "ma") 10
    (fun _ _ _ => Outcome.response true 200 none (some "i") 11) ["a"]
    stalePrev "b" (by decide) (by decide)

end ImageGen
